import Mathlib

/-!
Formal model of the wSMA cryostat compressor control layer.

The definitions below are shallow embeddings of the Python sources:
  * `wsma_cryostat_compressor/__init__.py` (fault decoding, compressor
    state machine, register update cycle),
  * `wsma_cryostat_compressor/inverter.py` (frequency commands, the
    retry-wrapped register read),
  * `smax-daemon/compressor-smax-daemon.py` and
    `smax-daemon/compressor_interface.py` (the polling daemon and the
    hardware-lock discipline).
Machine floats in the sources only carry exact small decimals here, so
they are modelled as rationals; Python `int()` truncation is modelled
explicitly.
-/

namespace Wsma

/-! ## Fault decoder: `_error_code_to_string` -/

/-- The ordered flag table walked by `_error_code_to_string`
(`__init__.py` lines 60–152): thresholds from most negative to least
negative, each a power of two, with the message appended for it. -/
def errorFlags : List (Int × String) := [
  (-1073741824, "Inverter Comm Loss"),
  (-536870912, "Driver Comm Loss"),
  (-268435456, "Inverter Error"),
  (-134217728, "Motor Current High"),
  (-67108864, "Motor Current Sensor"),
  (-33554432, "Low Pressure Sensor"),
  (-16777216, "High Pressure Sensor"),
  (-8388608, "Oil Sensor"),
  (-4194304, "Helium Sensor"),
  (-2097152, "Coolant Out Sensor"),
  (-1048576, "Coolant In Sensor"),
  (-524288, "Cold Head Motor Stall"),
  (-262144, "Static Pressure Low"),
  (-131072, "Static Pressure High"),
  (-65536, "Power Supply Error"),
  (-32768, "Three Phase Error"),
  (-16384, "Motor Current Low"),
  (-8192, "Delta Pressure Low"),
  (-4096, "Delta Pressure High"),
  (-2048, "High Pressure Low"),
  (-1024, "High Pressure High"),
  (-512, "Low Pressure Low"),
  (-256, "Low Pressure High"),
  (-128, "Helium Low"),
  (-64, "Helium High"),
  (-32, "Oil Low"),
  (-16, "Oil High"),
  (-8, "Coolant Out Low"),
  (-4, "Coolant Out High"),
  (-2, "Coolant In Low"),
  (-1, "Coolant In High")]

/-- The cascade of `if threshold >= worker: append name; worker -= threshold`
steps of `_error_code_to_string`, producing the appended text. -/
def faultStr : Int → List (Int × String) → String
  | _, [] => ""
  | w, (t, nm) :: rest =>
    if t ≥ w then (nm ++ ", ") ++ faultStr (w - t) rest else faultStr w rest

/-- The same cascade, recording the appended flag names as a list. -/
def faultAcc : Int → List (Int × String) → List String
  | _, [] => []
  | w, (t, nm) :: rest =>
    if t ≥ w then nm :: faultAcc (w - t) rest else faultAcc w rest

/-- Python `str.strip()`: remove leading and trailing whitespace. -/
def pyStrip (s : String) : String :=
  String.mk (((s.data.dropWhile Char.isWhitespace).reverse.dropWhile
    Char.isWhitespace).reverse)

/-- The tail of `_error_code_to_string`: start from three spaces, append
the flag text, then strip and drop the final comma, or return "None". -/
def renderFaults (s : String) : String :=
  let strReturn := "   " ++ s
  let stripped := pyStrip strReturn
  if 0 < stripped.length then String.mk stripped.data.dropLast else "None"

/-- `_error_code_to_string` (`__init__.py` lines 45–159): normalize the
sign of the code, walk the flag table, render the message. -/
def error_code_to_string (code : Int) : String :=
  renderFaults (faultStr (if 0 < code then -code else code) errorFlags)

/-! ### Analysis of the fault decoder -/

/-- Sum of the thresholds of a flag list. -/
def sumVals (l : List (Int × String)) : Int := (l.map Prod.fst).sum

/-- Each threshold is negative and strictly below the sum of all later
thresholds: the property that makes the greedy walk a flag decomposition. -/
def domTable : List (Int × String) → Bool
  | [] => true
  | (t, _) :: rest => (decide (t < 0) && decide (t < sumVals rest)) && domTable rest

lemma sumVals_nil : sumVals [] = 0 := rfl

lemma sumVals_cons (p : Int × String) (l : List (Int × String)) :
    sumVals (p :: l) = p.1 + sumVals l := by simp [sumVals]

lemma domTable_neg : ∀ {l : List (Int × String)}, domTable l = true →
    ∀ p ∈ l, p.1 < 0 := by
  intro l
  induction l with
  | nil => intro _ p hp; cases hp
  | cons q rest ih =>
    obtain ⟨t, nm⟩ := q
    intro h p hp
    simp only [domTable, Bool.and_eq_true, decide_eq_true_eq] at h
    rcases List.mem_cons.mp hp with rfl | hp
    · exact h.1.1
    · exact ih h.2 p hp

lemma sumVals_sublist {S l : List (Int × String)} (h : S.Sublist l)
    (hneg : ∀ p ∈ l, p.1 < 0) : sumVals l ≤ sumVals S ∧ sumVals S ≤ 0 := by
  induction h with
  | slnil => simp [sumVals]
  | cons a h ih =>
    have ha := hneg a (List.mem_cons_self a _)
    have hrec := ih (fun p hp => hneg p (List.mem_cons_of_mem a hp))
    rw [sumVals_cons]
    constructor <;> omega
  | cons₂ a h ih =>
    have ha := hneg a (List.mem_cons_self a _)
    have hrec := ih (fun p hp => hneg p (List.mem_cons_of_mem a hp))
    rw [sumVals_cons, sumVals_cons]
    constructor <;> omega

/-- On the sum of any sub-collection of flags (taken in table order), the
greedy walk recovers exactly the names of those flags, in order. -/
lemma faultAcc_sublist {tbl S : List (Int × String)} (h : S.Sublist tbl)
    (hdom : domTable tbl = true) :
    faultAcc (sumVals S) tbl = S.map Prod.snd := by
  induction h with
  | slnil => rfl
  | cons a h ih =>
    obtain ⟨t, nm⟩ := a
    simp only [domTable, Bool.and_eq_true, decide_eq_true_eq] at hdom
    have hS := sumVals_sublist h (domTable_neg hdom.2)
    rw [faultAcc, if_neg (by omega)]
    exact ih hdom.2
  | cons₂ a h ih =>
    obtain ⟨t, nm⟩ := a
    simp only [domTable, Bool.and_eq_true, decide_eq_true_eq] at hdom
    have hS := sumVals_sublist h (domTable_neg hdom.2)
    rw [sumVals_cons, faultAcc, if_pos (by omega), List.map_cons,
      add_sub_cancel_left]
    exact congrArg (nm :: ·) (ih hdom.2)

lemma faultStr_eq (w : Int) (tbl : List (Int × String)) :
    faultStr w tbl =
      ((faultAcc w tbl).map (fun nm => nm ++ ", ")).foldr (· ++ ·) "" := by
  induction tbl generalizing w with
  | nil => rfl
  | cons p rest ih =>
    obtain ⟨t, nm⟩ := p
    by_cases h : t ≥ w
    · simp [faultStr, faultAcc, h, ih]
    · simp [faultStr, faultAcc, h, ih]

/-- Comma-separated rendering of a list of names. -/
def commaJoin : List String → String
  | [] => ""
  | [nm] => nm
  | nm :: rest => nm ++ ", " ++ commaJoin rest

lemma joinFlags_data (ns : List String) (h : ns ≠ []) :
    ((ns.map (fun nm => nm ++ ", ")).foldr (· ++ ·) "").data =
      (commaJoin ns).data ++ [',', ' '] := by
  induction ns with
  | nil => cases h rfl
  | cons nm rest ih =>
    cases rest with
    | nil => simp [commaJoin, String.data_append]
    | cons nm₂ r =>
      have hco : commaJoin (nm :: nm₂ :: r) = nm ++ ", " ++ commaJoin (nm₂ :: r) := rfl
      have hl : (List.map (fun nm => nm ++ ", ") (nm :: nm₂ :: r)).foldr (· ++ ·) "" =
          (nm ++ ", ") ++ (List.map (fun nm => nm ++ ", ") (nm₂ :: r)).foldr (· ++ ·) "" := rfl
      rw [hl, String.data_append, ih (by simp), hco, String.data_append,
        String.data_append]
      simp [List.append_assoc]

/-- A flag name is nonempty and has non-whitespace first and last
characters. -/
def goodName (nm : String) : Bool :=
  (match nm.data with
   | [] => false
   | c :: _ => !c.isWhitespace) &&
  (match nm.data.getLast? with
   | none => false
   | some c => !c.isWhitespace)

lemma lstrip_spaces (c : Char) (l : List Char) (hc : c.isWhitespace = false) :
    (' ' :: ' ' :: ' ' :: c :: l).dropWhile Char.isWhitespace = c :: l := by
  simp [List.dropWhile_cons, hc]

lemma rstrip_comma_space (u : List Char) :
    ((u ++ [',', ' ']).reverse.dropWhile Char.isWhitespace).reverse =
      u ++ [','] := by
  have h : (u ++ [',', ' ']).reverse = ' ' :: ',' :: u.reverse := by simp
  rw [h]
  simp [List.dropWhile_cons]

lemma strip_flags (ns : List String) (h : ns ≠ [])
    (hg : ∀ nm ∈ ns, goodName nm = true) :
    pyStrip ("   " ++ ((ns.map (fun nm => nm ++ ", ")).foldr (· ++ ·) "")) =
      String.mk ((commaJoin ns).data ++ [',']) := by
  obtain ⟨nm, rest, rfl⟩ : ∃ nm rest, ns = nm :: rest := by
    cases ns with
    | nil => cases h rfl
    | cons a b => exact ⟨a, b, rfl⟩
  have hnm : ∃ c cs, nm.data = c :: cs ∧ c.isWhitespace = false := by
    have hgood := hg nm (by simp)
    unfold goodName at hgood
    cases hd : nm.data with
    | nil => rw [hd] at hgood; simp at hgood
    | cons c cs =>
      rw [hd] at hgood
      simp only [Bool.and_eq_true, Bool.not_eq_true'] at hgood
      exact ⟨c, cs, rfl, hgood.1⟩
  obtain ⟨c, cs, hcd, hcw⟩ := hnm
  have hcj : ∃ tail, (commaJoin (nm :: rest)).data = nm.data ++ tail := by
    cases rest with
    | nil => exact ⟨[], by simp [commaJoin]⟩
    | cons b r =>
      refine ⟨',' :: ' ' :: (commaJoin (b :: r)).data, ?_⟩
      have hco : commaJoin (nm :: b :: r) = nm ++ ", " ++ commaJoin (b :: r) := rfl
      rw [hco, String.data_append, String.data_append]
      simp [List.append_assoc]
  obtain ⟨tail, htail⟩ := hcj
  unfold pyStrip
  rw [String.data_append, joinFlags_data _ (by simp), htail, hcd]
  have hshape : ("   ").data ++ ((c :: cs ++ tail) ++ [',', ' ']) =
      ' ' :: ' ' :: ' ' :: c :: (cs ++ tail ++ [',', ' ']) := by
    simp
  rw [hshape, lstrip_spaces c _ hcw]
  have := rstrip_comma_space (c :: (cs ++ tail))
  simp only [List.cons_append, List.append_assoc] at this ⊢
  rw [this]

lemma mk_data (s : String) : String.mk s.data = s := by cases s; rfl

lemma renderFaults_flags (ns : List String) (h : ns ≠ [])
    (hg : ∀ nm ∈ ns, goodName nm = true) :
    renderFaults ((ns.map (fun nm => nm ++ ", ")).foldr (· ++ ·) "") =
      commaJoin ns := by
  have hstrip := strip_flags ns h hg
  simp only [renderFaults]
  rw [hstrip]
  have hlen : 0 < (String.mk ((commaJoin ns).data ++ [','])).length := by
    show 0 < ((commaJoin ns).data ++ [',']).length
    simp
  rw [if_pos hlen]
  show String.mk (((commaJoin ns).data ++ [',']).dropLast) = commaJoin ns
  rw [List.dropLast_concat, mk_data]

lemma domTable_errorFlags : domTable errorFlags = true := by decide

lemma errorFlags_names_good : ∀ nm ∈ errorFlags.map Prod.snd, goodName nm = true := by
  decide

/-- C3: the fault decoder maps code 0 to "None"; on any code that is the
sum of a sub-collection of distinct flags from the table (taken in table
order, i.e. in descending order of flag magnitude) it returns exactly the
names of those flags, in that order, joined by commas; and it is
injective on single-flag codes. -/
theorem fault_decoder_decomposition :
    error_code_to_string 0 = "None" ∧
    (∀ S : List (Int × String), S.Sublist errorFlags →
      error_code_to_string (sumVals S) =
        if S.isEmpty then "None" else commaJoin (S.map Prod.snd)) ∧
    (∀ p ∈ errorFlags, ∀ q ∈ errorFlags,
      error_code_to_string p.1 = error_code_to_string q.1 → p = q) := by
  have key : ∀ S : List (Int × String), S.Sublist errorFlags →
      error_code_to_string (sumVals S) =
        if S.isEmpty then "None" else commaJoin (S.map Prod.snd) := by
    intro S hS
    have hneg := domTable_neg domTable_errorFlags
    have hle := sumVals_sublist hS hneg
    have hworker : (if 0 < sumVals S then -sumVals S else sumVals S) = sumVals S := by
      rw [if_neg (by omega)]
    rw [error_code_to_string, hworker, faultStr_eq,
      faultAcc_sublist hS domTable_errorFlags]
    cases S with
    | nil => decide
    | cons p rest =>
      have hns_ne : (p :: rest).map Prod.snd ≠ [] := by simp
      have hg : ∀ nm ∈ (p :: rest).map Prod.snd, goodName nm = true := by
        intro nm hm
        exact errorFlags_names_good nm ((hS.map Prod.snd).subset hm)
      rw [renderFaults_flags _ hns_ne hg]
      simp
  refine ⟨by decide, key, ?_⟩
  intro p hp q hq heq
  have hp1 : error_code_to_string p.1 = p.2 := by
    have h := key [p] (List.singleton_sublist.mpr hp)
    simpa [sumVals, commaJoin] using h
  have hq1 : error_code_to_string q.1 = q.2 := by
    have h := key [q] (List.singleton_sublist.mpr hq)
    simpa [sumVals, commaJoin] using h
  rw [hp1, hq1] at heq
  have huniq : ∀ a ∈ errorFlags, ∀ b ∈ errorFlags, a.2 = b.2 → a = b := by decide
  exact huniq p hp q hq heq

/-- Witness for C3: a concrete two-flag code decodes to the two names in
descending magnitude order. -/
theorem fault_decoder_decomposition_witness :
    [((-2097152 : Int), "Coolant Out Sensor"),
      ((-4 : Int), "Coolant Out High")].Sublist errorFlags ∧
    error_code_to_string (-2097156) = "Coolant Out Sensor, Coolant Out High" := by
  refine ⟨by decide, ?_⟩
  have h := fault_decoder_decomposition.2.1
    [((-2097152 : Int), "Coolant Out Sensor"), ((-4 : Int), "Coolant Out High")]
    (by decide)
  norm_num [sumVals, commaJoin] at h
  exact h.trans (by decide)

/-- C9: the fault decoder is invariant under the sign of the code, since
the sign is normalized before the flag table is walked: the positive
(version 3) coding and the negative (version 2) coding of the same fault
set decode identically. -/
theorem fault_decoder_sign_invariant (code : Int) :
    error_code_to_string code = error_code_to_string (-code) := by
  have h : (if 0 < code then -code else code) =
      (if 0 < -code then - -code else -code) := by
    split_ifs <;> omega
  simp only [error_code_to_string]
  rw [h]

/-! ## Python integer truncation -/

/-- Python `int()` on a rational: truncation toward zero. -/
def pyInt (q : ℚ) : Int := if 0 ≤ q then q.floor else -((-q).floor)

lemma ratFloor_eq (q : ℚ) : q.floor = ⌊q⌋ :=
  (Rat.floor_def' q).trans Rat.floor_def.symm

lemma pyInt_nonneg (q : ℚ) (h : 0 ≤ q) : pyInt q = ⌊q⌋ := by
  rw [pyInt, if_pos h, ratFloor_eq]

/-! ## Register maps (`__init__.py` lines 233–330) -/

/-- Register addresses selected per firmware major version; `none` marks a
quantity absent from that firmware variant. -/
structure RegMap where
  operating_state_addr : Nat
  enabled_addr : Nat
  inverter_set_freq_addr : Option Nat
  warning_addr : Nat
  error_addr : Nat
  coolant_in_addr : Nat
  coolant_out_addr : Nat
  oil_temp_addr : Nat
  helium_temp_addr : Nat
  low_press_addr : Nat
  low_press_avg_addr : Nat
  high_press_addr : Nat
  high_press_avg_addr : Nat
  delta_press_avg_addr : Nat
  motor_current_addr : Nat
  hours_addr : Nat
  press_unit_addr : Nat
  temp_unit_addr : Nat
  rpm_addr : Option Nat
  software_var_addr : Option Nat
  inverter_freq_addr : Option Nat
  inverter_curr_addr : Option Nat
  enable_addr : Nat
deriving DecidableEq

/-- `cp_v2_registers`. -/
def cp_v2_registers : RegMap where
  operating_state_addr := 1
  enabled_addr := 2
  inverter_set_freq_addr := none
  warning_addr := 3
  error_addr := 5
  coolant_in_addr := 7
  coolant_out_addr := 9
  oil_temp_addr := 11
  helium_temp_addr := 13
  low_press_addr := 15
  low_press_avg_addr := 17
  high_press_addr := 19
  high_press_avg_addr := 21
  delta_press_avg_addr := 23
  motor_current_addr := 25
  hours_addr := 27
  press_unit_addr := 29
  temp_unit_addr := 30
  rpm_addr := none
  software_var_addr := none
  inverter_freq_addr := none
  inverter_curr_addr := none
  enable_addr := 1

/-- `cp_v3_registers`. -/
def cp_v3_registers : RegMap where
  operating_state_addr := 1
  enabled_addr := 2
  inverter_set_freq_addr := some 3
  warning_addr := 52
  error_addr := 54
  coolant_in_addr := 40
  coolant_out_addr := 41
  oil_temp_addr := 42
  helium_temp_addr := 43
  low_press_addr := 44
  low_press_avg_addr := 45
  high_press_addr := 46
  high_press_avg_addr := 47
  delta_press_avg_addr := 48
  motor_current_addr := 49
  hours_addr := 50
  press_unit_addr := 29
  temp_unit_addr := 30
  rpm_addr := some 34
  software_var_addr := some 35
  inverter_freq_addr := some 36
  inverter_curr_addr := some 37
  enable_addr := 1

/-! ## Inverter frequency commands (`inverter.py`) -/

/-- `Inverter._frequency_addr`. -/
def frequency_addr : Nat := 0x1001

/-- `Inverter._frequency_control_addr`. -/
def frequency_control_addr : Nat := 0x0001

/-- A transport-level operation performed by an inverter method. -/
inductive InvOp where
  | writeReg (addr : Nat) (v : Int)
  | sleepOp
  | retriedRead (addr : Nat) (cnt : Nat)
deriving DecidableEq

/-- `Inverter._set_frequency` (`inverter.py` lines 219–231): one write of
the encoded value to the frequency-control register, the settle sleep,
then `_get_frequency_setting` (lines 228–231), whose read of the setting
register is the retry-wrapped `_read_registers`. -/
def inv_set_frequency_ops (f : Int) : List InvOp :=
  [.writeReg frequency_control_addr f, .sleepOp,
   .retriedRead frequency_control_addr 2]

/-- `Inverter.set_frequency` (`inverter.py` lines 241–252): encode into
hundredths of a hertz with `int(freq * 100)`, reject outside
[4000, 7000], otherwise perform `_set_frequency`.  Returns the transport
operations performed and the integer written. -/
def set_frequency (freq : ℚ) : Except String (List InvOp × Int) :=
  let f := pyInt (freq * 100)
  if f > 7000 ∨ f < 4000 then
    .error "Cannot set inverter frequency outside the range of 40-70 Hz"
  else
    .ok (inv_set_frequency_ops f, f)

/-- An operation performed by `Compressor.set_inverter_freq`: a write or
read on the compressor register space, or an inverter client operation. -/
inductive CIOp where
  | compWrite (addr : Nat) (v : Int)
  | compRead (addr : Nat)
  | invOp (op : InvOp)
deriving DecidableEq

/-- `Compressor.set_inverter_freq` (`__init__.py` lines 1193–1203) with
the trailing `_get_inverter_freq_setting` confirm (lines 1178–1186):
no inverter means no operation; "internal" writes `int(freq*10)` to the
set-frequency register with no range check and re-reads it; "rs485"
delegates to `Inverter.set_frequency` and then hits the undefined local
name `freq` in `_get_inverter_freq_setting`. -/
def set_inverter_freq (mode : Option String) (regs : RegMap) (freq : ℚ) :
    List CIOp × Except String Unit :=
  match mode with
  | none => ([], .ok ())
  | some "internal" =>
    match regs.inverter_set_freq_addr with
    | some addr => ([.compWrite addr (pyInt (freq * 10)), .compRead addr], .ok ())
    | none => ([], .error "TypeError: register address is None")
  | some "rs485" =>
    match set_frequency freq with
    | .error msg => ([], .error msg)
    | .ok (ops, _) =>
      (ops.map .invOp, .error "NameError: name freq is not defined")
  | some _ => ([], .ok ())

lemma set_frequency_in_range (freq : ℚ) (h1 : 40 ≤ freq) (h2 : freq ≤ 70) :
    set_frequency freq =
      .ok (inv_set_frequency_ops (pyInt (freq * 100)), pyInt (freq * 100)) ∧
    4000 ≤ pyInt (freq * 100) ∧ pyInt (freq * 100) ≤ 7000 := by
  have h0 : (0:ℚ) ≤ freq * 100 := by linarith
  have hf := pyInt_nonneg _ h0
  have hlow : (4000:Int) ≤ pyInt (freq * 100) := by
    rw [hf]
    exact Int.le_floor.mpr (by push_cast; linarith)
  have hhigh : pyInt (freq * 100) ≤ 7000 := by
    rw [hf]
    have hfl := Int.floor_le (freq * 100)
    have hle : (freq * 100 : ℚ) ≤ 7000 := by linarith
    exact_mod_cast hfl.trans hle
  refine ⟨?_, hlow, hhigh⟩
  simp only [set_frequency]
  rw [if_neg (by omega)]

/-- C2 counterexample: in "internal" inverter mode
`Compressor.set_inverter_freq 100` — far outside [40, 70] Hz — is not
rejected: the register write of 1000 is performed. -/
theorem set_inverter_freq_internal_unchecked :
    set_inverter_freq (some "internal") cp_v3_registers 100 =
      ([.compWrite 3 1000, .compRead 3], .ok ()) ∧ ¬ ((100:ℚ) ≤ 70) := by
  constructor
  · have e : pyInt ((100:ℚ) * 10) = 1000 := by
      rw [pyInt_nonneg _ (by norm_num)]; norm_num
    simp [set_inverter_freq, cp_v3_registers, e]
  · norm_num

/-- C2 (amended): `Inverter.set_frequency` rejects exactly when the
truncated hundredths-of-hertz encoding `int(freq*100)` falls outside
[4000, 7000] — in particular every frequency in [40, 70] Hz is accepted
and written.  `Compressor.set_inverter_freq` performs nothing when no
inverter is configured, inherits the check in "rs485" mode (a rejected
command performs no operation), but in "internal" mode performs the
register write with no range check at all. -/
theorem freq_range_check_amended (freq : ℚ) :
    (∀ regs, set_inverter_freq none regs freq = ([], .ok ())) ∧
    ((∃ msg, set_frequency freq = .error msg) ↔
      (pyInt (freq * 100) > 7000 ∨ pyInt (freq * 100) < 4000)) ∧
    (40 ≤ freq → freq ≤ 70 →
      set_frequency freq =
        .ok (inv_set_frequency_ops (pyInt (freq * 100)), pyInt (freq * 100))) ∧
    (pyInt (freq * 100) > 7000 ∨ pyInt (freq * 100) < 4000 →
      ∀ regs, (set_inverter_freq (some "rs485") regs freq).1 = []) ∧
    (∀ regs addr, regs.inverter_set_freq_addr = some addr →
      (set_inverter_freq (some "internal") regs freq).1 =
        [.compWrite addr (pyInt (freq * 10)), .compRead addr]) := by
  refine ⟨fun regs => rfl, ?_, ?_, ?_, ?_⟩
  · constructor
    · rintro ⟨msg, hmsg⟩
      by_contra hc
      simp only [set_frequency] at hmsg
      rw [if_neg hc] at hmsg
      simp at hmsg
    · intro hc
      exact ⟨_, by simp only [set_frequency]; rw [if_pos hc]⟩
  · intro h1 h2
    exact (set_frequency_in_range freq h1 h2).1
  · intro hc regs
    have hmsg : set_frequency freq =
        .error "Cannot set inverter frequency outside the range of 40-70 Hz" := by
      simp only [set_frequency]
      rw [if_pos hc]
    simp [set_inverter_freq, hmsg]
  · intro regs addr h
    simp [set_inverter_freq, h]

/-- Witness for C2: 55 Hz is accepted and encoded as 5500, while 39.9 Hz
is rejected. -/
theorem freq_range_check_amended_witness :
    set_frequency 55 = .ok (inv_set_frequency_ops 5500, 5500) ∧
    (∃ msg, set_frequency (399/10) = .error msg) := by
  constructor
  · have h := (freq_range_check_amended 55).2.2.1 (by norm_num) (by norm_num)
    have e : pyInt ((55:ℚ) * 100) = 5500 := by
      rw [pyInt_nonneg _ (by norm_num)]; norm_num
    rw [e] at h
    exact h
  · refine ((freq_range_check_amended (399/10)).2.1).mpr ?_
    right
    have e : pyInt ((399/10:ℚ) * 100) = 3990 := by
      rw [pyInt_nonneg _ (by norm_num)]; norm_num
    rw [e]
    norm_num

/-- C7 counterexample: `set_frequency 55` writes the integer 5500 —
hundredths of a hertz — to the control register, not the tenths-of-hertz
encoding 550. -/
theorem set_frequency_writes_hundredths :
    set_frequency 55 =
      .ok ([.writeReg frequency_control_addr 5500, .sleepOp,
            .retriedRead frequency_control_addr 2], 5500) ∧
    (5500 : Int) ≠ 550 := by
  constructor
  · have e : pyInt ((55:ℚ) * 100) = 5500 := by
      rw [pyInt_nonneg _ (by norm_num)]; norm_num
    simp only [set_frequency, e]
    norm_num [inv_set_frequency_ops]
  · decide

/-- C7 (amended): for every in-range frequency, `set_frequency` converts
to the hundredths-of-hertz integer encoding `int(freq*100)`, performs
exactly one write — of that integer, to the frequency-control holding
register — then sleeps and re-reads the setting register once through the
retry-wrapped `_read_registers`; the write itself sits in no retry loop. -/
theorem set_frequency_encoding_and_confirm (freq : ℚ)
    (h1 : 40 ≤ freq) (h2 : freq ≤ 70) :
    set_frequency freq =
      .ok ([.writeReg frequency_control_addr (pyInt (freq * 100)), .sleepOp,
            .retriedRead frequency_control_addr 2], pyInt (freq * 100)) ∧
    (inv_set_frequency_ops (pyInt (freq * 100))).countP
        (fun op => match op with | .writeReg _ _ => true | _ => false) = 1 := by
  refine ⟨(set_frequency_in_range freq h1 h2).1, ?_⟩
  rfl

/-! ## Retry-wrapped register read (`inverter.py` lines 22–30, 170–178) -/

/-- A Python exception propagating out of a transport call, tagged so
distinct raises are distinguishable. -/
inductive PyExc where
  | modbusIOErr (k : Nat)
  | otherExc (k : Nat)
deriving DecidableEq

/-- `_is_modbus_io_error` (`inverter.py` lines 22–30). -/
def is_modbus_io_error : PyExc → Bool
  | .modbusIOErr _ => true
  | .otherExc _ => false

/-- What one `client.read_holding_registers` call can produce when it
returns: a data reply, a well-formed Modbus error reply, or a returned
`ModbusIOException` object. -/
inductive ModbusReply where
  | regs (vals : List Int)
  | errReply (code : Nat)
  | ioErrObj (k : Nat)
deriving DecidableEq

/-- The body of `_read_registers` (lines 171–178): perform the read; a
returned `ModbusIOException` is raised; any other reply is returned; an
exception raised by the call itself propagates. -/
def read_registers_body (t : Except PyExc ModbusReply) :
    Except PyExc ModbusReply :=
  match t with
  | .error e => .error e
  | .ok (.ioErrObj k) => .error (.modbusIOErr k)
  | .ok r => .ok r

/-- The parameters of the `@retry` decorator on `_read_registers`. -/
structure RetryPolicy where
  retryOn : PyExc → Bool
  stopMaxAttempt : Nat
  waitRandomMin : Nat
  waitRandomMax : Nat

/-- `retry_on_exception=_is_modbus_io_error, wait_random_min=300,
wait_random_max=900, stop_max_attempt_number=5` (line 170). -/
def read_registers_policy : RetryPolicy :=
  ⟨is_modbus_io_error, 5, 300, 900⟩

/-- The uniform random wait of the `retrying` library, with the draw of
attempt `i` supplied by the oracle `rand`. -/
def waitValue (p : RetryPolicy) (rand : Nat → Nat) (i : Nat) : Nat :=
  p.waitRandomMin + rand i % (p.waitRandomMax - p.waitRandomMin + 1)

/-- The `retrying.Retrying.call` loop: run the operation; return a
success; re-raise a non-retryable exception at once; re-raise the last
exception when the attempt limit is reached; otherwise sleep the random
wait and try again.  `fuel` bounds the recursion and is set to the
attempt limit, which the stop condition reaches first.  Returns
(result, attempts made, waits slept). -/
def retryGo {A : Type} (p : RetryPolicy) (rand : Nat → Nat)
    (op : Nat → Except PyExc A) (fuel i : Nat) :
    Except PyExc A × Nat × List Nat :=
  match op i with
  | .ok a => (.ok a, i + 1, [])
  | .error e =>
    if p.retryOn e then
      if p.stopMaxAttempt ≤ i + 1 then (.error e, i + 1, [])
      else
        match fuel with
        | 0 => (.error e, i + 1, [])
        | fuel' + 1 =>
          let r := retryGo p rand op fuel' (i + 1)
          (r.1, r.2.1, waitValue p rand i :: r.2.2)
    else (.error e, i + 1, [])

/-- Run a retry-wrapped operation from the first attempt. -/
def retryCall {A : Type} (p : RetryPolicy) (rand : Nat → Nat)
    (op : Nat → Except PyExc A) : Except PyExc A × Nat × List Nat :=
  retryGo p rand op p.stopMaxAttempt 0

/-- `Inverter._read_registers`: the body wrapped in the retry policy;
`transport i` is what the i-th underlying read produces. -/
def read_registers (transport : Nat → Except PyExc ModbusReply)
    (rand : Nat → Nat) : Except PyExc ModbusReply × Nat × List Nat :=
  retryCall read_registers_policy rand
    (fun i => read_registers_body (transport i))

lemma retryGo_attempts_le {A : Type} (p : RetryPolicy) (rand : Nat → Nat)
    (op : Nat → Except PyExc A) :
    ∀ fuel i, (retryGo p rand op fuel i).2.1 ≤ max (i + 1) p.stopMaxAttempt := by
  intro fuel
  induction fuel with
  | zero =>
    intro i
    rw [retryGo]
    rcases hop : op i with e | a
    · simp only [hop]
      split_ifs <;> simp
    · simp only [hop]
      simp
  | succ fuel ih =>
    intro i
    rw [retryGo]
    rcases hop : op i with e | a
    · simp only [hop]
      split_ifs with hr hs
      · simp
      · have hrec := ih (i + 1)
        show (retryGo p rand op fuel (i + 1)).2.1 ≤ max (i + 1) p.stopMaxAttempt
        omega
      · simp
    · simp only [hop]
      simp

lemma retryGo_waits_bounded {A : Type} (p : RetryPolicy) (rand : Nat → Nat)
    (op : Nat → Except PyExc A) :
    ∀ fuel i, ∀ w ∈ (retryGo p rand op fuel i).2.2,
      p.waitRandomMin ≤ w ∧
        w ≤ p.waitRandomMin + (p.waitRandomMax - p.waitRandomMin) := by
  intro fuel
  induction fuel with
  | zero =>
    intro i w hw
    rw [retryGo] at hw
    rcases hop : op i with e | a
    · simp only [hop] at hw
      split_ifs at hw <;> simp at hw
    · simp only [hop] at hw
      simp at hw
  | succ fuel ih =>
    intro i w hw
    rw [retryGo] at hw
    rcases hop : op i with e | a
    · simp only [hop] at hw
      split_ifs at hw with hr hs
      · simp at hw
      · change w ∈ waitValue p rand i ::
          (retryGo p rand op fuel (i + 1)).2.2 at hw
        rcases List.mem_cons.mp hw with rfl | hw
        · constructor
          · exact Nat.le_add_right _ _
          · have hm := Nat.mod_lt (rand i)
              (y := p.waitRandomMax - p.waitRandomMin + 1) (by omega)
            unfold waitValue
            omega
        · exact ih (i + 1) w hw
      · simp at hw
    · simp only [hop] at hw
      simp at hw

/-- C4: the retry wrapper around `_read_registers` retries only transient
Modbus I/O failures; five all-transient attempts propagate the last
failure after four bounded random waits; a well-formed error reply or any
other exception kind is never retried; a read that fails transiently
twice then succeeds completes on the third attempt; and in general at
most 5 attempts are made and every wait lies in [300, 900] ms. -/
theorem read_registers_retry_policy
    (transport : Nat → Except PyExc ModbusReply) (rand : Nat → Nat) :
    (∀ k : Nat → Nat, (∀ i, i < 5 → transport i = .ok (.ioErrObj (k i))) →
      read_registers transport rand =
        (.error (.modbusIOErr (k 4)), 5,
          [waitValue read_registers_policy rand 0,
           waitValue read_registers_policy rand 1,
           waitValue read_registers_policy rand 2,
           waitValue read_registers_policy rand 3])) ∧
    (∀ c, transport 0 = .ok (.errReply c) →
      read_registers transport rand = (.ok (.errReply c), 1, [])) ∧
    (∀ e, transport 0 = .error e → is_modbus_io_error e = false →
      read_registers transport rand = (.error e, 1, [])) ∧
    (∀ k0 k1 vs, transport 0 = .ok (.ioErrObj k0) →
      transport 1 = .ok (.ioErrObj k1) → transport 2 = .ok (.regs vs) →
      read_registers transport rand = (.ok (.regs vs), 3,
        [waitValue read_registers_policy rand 0,
         waitValue read_registers_policy rand 1])) ∧
    ((read_registers transport rand).2.1 ≤ 5 ∧
      ∀ w ∈ (read_registers transport rand).2.2, 300 ≤ w ∧ w ≤ 900) := by
  refine ⟨?_, ?_, ?_, ?_, ?_, ?_⟩
  · intro k h
    have h0 := h 0 (by norm_num)
    have h1 := h 1 (by norm_num)
    have h2 := h 2 (by norm_num)
    have h3 := h 3 (by norm_num)
    have h4 := h 4 (by norm_num)
    simp [read_registers, retryCall, read_registers_policy, retryGo,
      read_registers_body, h0, h1, h2, h3, h4, is_modbus_io_error]
  · intro c h0
    simp [read_registers, retryCall, read_registers_policy, retryGo,
      read_registers_body, h0]
  · intro e h0 hne
    simp [read_registers, retryCall, read_registers_policy, retryGo,
      read_registers_body, h0, hne]
  · intro k0 k1 vs h0 h1 h2
    simp [read_registers, retryCall, read_registers_policy, retryGo,
      read_registers_body, h0, h1, h2, is_modbus_io_error]
  · have := retryGo_attempts_le read_registers_policy rand
      (fun i => read_registers_body (transport i)) read_registers_policy.stopMaxAttempt 0
    simpa [read_registers, retryCall, read_registers_policy] using this
  · intro w hw
    have := retryGo_waits_bounded read_registers_policy rand
      (fun i => read_registers_body (transport i)) read_registers_policy.stopMaxAttempt 0 w
    have hb := this hw
    simpa [read_registers_policy] using hb

/-- Witness for C4: a transport whose first two reads return
`ModbusIOException` objects and whose third returns data succeeds on the
third attempt, with the constant-zero random oracle giving two 300 ms
waits. -/
theorem read_registers_retry_policy_witness :
    read_registers
      (fun i => if i = 0 then .ok (.ioErrObj 0) else
        if i = 1 then .ok (.ioErrObj 1) else .ok (.regs [42]))
      (fun _ => 0) = (.ok (.regs [42]), 3, [300, 300]) := by
  have h := (read_registers_retry_policy
      (fun i => if i = 0 then .ok (.ioErrObj 0) else
        if i = 1 then .ok (.ioErrObj 1) else .ok (.regs [42]))
      (fun _ => 0)).2.2.2.1 0 1 [42] (by norm_num) (by norm_num) (by norm_num)
  simpa [waitValue, read_registers_policy] using h

/-! ## Compressor state machine and update cycle (`__init__.py`) -/

/-- The cached reading fields of a `Compressor` object, together with the
firmware flag (`software_rev.startswith("3")`), the configured inverter
mode and the selected register map. -/
structure Comp where
  isV3 : Bool
  inverterMode : Option String
  regs : RegMap
  state : ℚ
  enabled : ℚ
  warning_code : Int
  error_code : Int
  coolant_in : ℚ
  coolant_out : ℚ
  oil_temp : ℚ
  helium_temp : ℚ
  low_press : ℚ
  low_press_avg : ℚ
  high_press : ℚ
  high_press_avg : ℚ
  delta_press_avg : ℚ
  motor_current : ℚ
  hours : ℚ
  inverter_freq : ℚ
  inverter_curr : ℚ
  coldhead_rpm : ℚ
deriving DecidableEq

/-- Hardware environment: what each register read or write at a given
time step returns.  `none` models an error reply (`isError()`), and
`invCall` tells whether a call into the inverter client object succeeds. -/
structure CompEnv where
  read16 : Nat → Nat → Option Int
  read32 : Nat → Nat → Option Int
  readF32 : Nat → Nat → Option ℚ
  writeOk : Nat → Nat → Int → Bool
  invCall : Nat → String → Bool

/-- Exceptions raised by compressor methods. -/
inductive CompExc where
  | readError (addr : Nat)
  | writeOnError
  | writeOffError
  | startTimeout (code : Int)
  | stopTimeout
  | attributeError (nm : String)
  | inverterCallError (nm : String)
  | noneAddr
deriving DecidableEq

/-- Interpreter state: a time-step counter advanced by every transport
operation and sleep, the number of settle sleeps performed, and the
compressor object. -/
structure CompSt where
  tick : Nat
  sleeps : Nat
  comp : Comp
deriving DecidableEq

/-- Python method semantics: state threading where an exception leaves
the mutations already performed in place. -/
def CompM (A : Type) : Type := CompSt → CompSt × Except CompExc A

instance : Monad CompM where
  pure a := fun s => (s, .ok a)
  bind m f := fun s =>
    match m s with
    | (s', .ok a) => f a s'
    | (s', .error e) => (s', .error e)

lemma compM_bind_def {A B : Type} (m : CompM A) (f : A → CompM B) (s : CompSt) :
    (m >>= f) s = match m s with
      | (s', .ok a) => f a s'
      | (s', .error e) => (s', .error e) := rfl

/-- Read the current object (Python `self`). -/
def getCompM : CompM Comp := fun s => (s, .ok s.comp)

/-- Assign fields of the current object. -/
def modifyCompM (f : Comp → Comp) : CompM Unit :=
  fun s => ({ s with comp := f s.comp }, .ok ())

/-- Raise an exception. -/
def throwM {A : Type} (e : CompExc) : CompM A := fun s => (s, .error e)

/-- `sleep(self._enable_delay)`. -/
def sleepM : CompM Unit :=
  fun s => ({ s with tick := s.tick + 1, sleeps := s.sleeps + 1 }, .ok ())

/-- `Compressor._read_int16`: raises on an error reply. -/
def read_int16 (env : CompEnv) (addr : Nat) : CompM Int := fun s =>
  match env.read16 s.tick addr with
  | some v => ({ s with tick := s.tick + 1 }, .ok v)
  | none => ({ s with tick := s.tick + 1 }, .error (.readError addr))

/-- `Compressor._read_int32`. -/
def read_int32 (env : CompEnv) (addr : Nat) : CompM Int := fun s =>
  match env.read32 s.tick addr with
  | some v => ({ s with tick := s.tick + 1 }, .ok v)
  | none => ({ s with tick := s.tick + 1 }, .error (.readError addr))

/-- `Compressor._read_float32`. -/
def read_float32 (env : CompEnv) (addr : Nat) : CompM ℚ := fun s =>
  match env.readF32 s.tick addr with
  | some v => ({ s with tick := s.tick + 1 }, .ok v)
  | none => ({ s with tick := s.tick + 1 }, .error (.readError addr))

/-- A 16-bit read through an optional register address: a `None` address
fails, as the Python call would. -/
def read_int16_opt (env : CompEnv) : Option Nat → CompM Int
  | some addr => read_int16 env addr
  | none => throwM .noneAddr

/-- `self._client.write_registers(...)`: returns the reply, whose
`isError()` the caller checks. -/
def write_registers (env : CompEnv) (addr : Nat) (v : Int) : CompM Bool :=
  fun s => ({ s with tick := s.tick + 1 }, .ok (env.writeOk s.tick addr v))

/-- `Compressor._read_input_register` (`__init__.py` lines 780–788):
`int16` on version-3 firmware, `float32` otherwise. -/
def read_input_register (env : CompEnv) (addr : Nat) : CompM ℚ := do
  let c ← getCompM
  if c.isV3 then
    let v ← read_int16 env addr
    pure (v : ℚ)
  else
    read_float32 env addr

/-- `Compressor._get_state`. -/
def get_state (env : CompEnv) : CompM Unit := do
  let c ← getCompM
  let v ← read_input_register env c.regs.operating_state_addr
  modifyCompM (fun c => { c with state := v })

/-- `Compressor._get_enabled`. -/
def get_enabled (env : CompEnv) : CompM Unit := do
  let c ← getCompM
  let v ← read_input_register env c.regs.enabled_addr
  modifyCompM (fun c => { c with enabled := v })

/-- `Compressor._get_warnings`: 32-bit int on version 3, float32 on
version 2, then `int(r)`. -/
def get_warnings (env : CompEnv) : CompM Unit := do
  let c ← getCompM
  if c.isV3 then
    let r ← read_int32 env c.regs.warning_addr
    modifyCompM (fun c => { c with warning_code := r })
  else
    let r ← read_float32 env c.regs.warning_addr
    modifyCompM (fun c => { c with warning_code := pyInt r })

/-- `Compressor._get_errors`. -/
def get_errors (env : CompEnv) : CompM Unit := do
  let c ← getCompM
  if c.isV3 then
    let r ← read_int32 env c.regs.error_addr
    modifyCompM (fun c => { c with error_code := r })
  else
    let r ← read_float32 env c.regs.error_addr
    modifyCompM (fun c => { c with error_code := pyInt r })

/-- The shared shape of the scaled sensor getters (`_get_coolant_in` …
`_get_motor_current`): tenth-scaled 16-bit int on version 3, float32 on
version 2. -/
def readScaledSensor (env : CompEnv) (addr : Nat) (set : Comp → ℚ → Comp) :
    CompM Unit := do
  let c ← getCompM
  if c.isV3 then
    let v ← read_int16 env addr
    modifyCompM (fun c => set c ((v : ℚ) / 10))
  else
    let v ← read_float32 env addr
    modifyCompM (fun c => set c v)

/-- `Compressor._get_coolant_in`. -/
def get_coolant_in (env : CompEnv) : CompM Unit := do
  let c ← getCompM
  readScaledSensor env c.regs.coolant_in_addr
    (fun c v => { c with coolant_in := v })

/-- `Compressor._get_coolant_out`. -/
def get_coolant_out (env : CompEnv) : CompM Unit := do
  let c ← getCompM
  readScaledSensor env c.regs.coolant_out_addr
    (fun c v => { c with coolant_out := v })

/-- `Compressor._get_oil_temp`. -/
def get_oil_temp (env : CompEnv) : CompM Unit := do
  let c ← getCompM
  readScaledSensor env c.regs.oil_temp_addr
    (fun c v => { c with oil_temp := v })

/-- `Compressor._get_helium_temp`. -/
def get_helium_temp (env : CompEnv) : CompM Unit := do
  let c ← getCompM
  readScaledSensor env c.regs.helium_temp_addr
    (fun c v => { c with helium_temp := v })

/-- `Compressor._get_low_pressure`. -/
def get_low_pressure (env : CompEnv) : CompM Unit := do
  let c ← getCompM
  readScaledSensor env c.regs.low_press_addr
    (fun c v => { c with low_press := v })

/-- `Compressor._get_low_pressure_average`. -/
def get_low_pressure_average (env : CompEnv) : CompM Unit := do
  let c ← getCompM
  readScaledSensor env c.regs.low_press_avg_addr
    (fun c v => { c with low_press_avg := v })

/-- `Compressor._get_high_pressure`. -/
def get_high_pressure (env : CompEnv) : CompM Unit := do
  let c ← getCompM
  readScaledSensor env c.regs.high_press_addr
    (fun c v => { c with high_press := v })

/-- `Compressor._get_high_pressure_average`. -/
def get_high_pressure_average (env : CompEnv) : CompM Unit := do
  let c ← getCompM
  readScaledSensor env c.regs.high_press_avg_addr
    (fun c v => { c with high_press_avg := v })

/-- `Compressor._get_delta_pressure_average`. -/
def get_delta_pressure_average (env : CompEnv) : CompM Unit := do
  let c ← getCompM
  readScaledSensor env c.regs.delta_press_avg_addr
    (fun c v => { c with delta_press_avg := v })

/-- `Compressor._get_motor_current`. -/
def get_motor_current (env : CompEnv) : CompM Unit := do
  let c ← getCompM
  readScaledSensor env c.regs.motor_current_addr
    (fun c v => { c with motor_current := v })

/-- `Compressor._get_hours`: 32-bit int scaled by ten on version 3. -/
def get_hours (env : CompEnv) : CompM Unit := do
  let c ← getCompM
  if c.isV3 then
    let v ← read_int32 env c.regs.hours_addr
    modifyCompM (fun c => { c with hours := (v : ℚ) / 10 })
  else
    let v ← read_float32 env c.regs.hours_addr
    modifyCompM (fun c => { c with hours := v })

/-- The attribute names defined on the `Inverter` class
(`inverter.py`); an access to any other name raises `AttributeError`. -/
def inverterMethods : List String :=
  ["connect", "frequency", "current", "voltage", "power",
   "frequency_setting", "address", "update", "status", "print_status",
   "get_status", "get_frequency", "set_frequency", "get_current",
   "get_voltage", "get_power", "get_frequency_setting",
   "_read_registers", "_get_frequency", "_get_current", "_get_voltage",
   "_get_power", "_set_frequency", "_get_frequency_setting",
   "_client", "_address", "_port", "_unit", "_serial_conf", "_frequency",
   "_current", "_voltage", "_power", "_set_delay", "verbose"]

/-- `self._inverterclient.<nm>()`: an undefined attribute raises
`AttributeError`; a defined method call succeeds or fails per the
environment. -/
def inverterCall (env : CompEnv) (nm : String) : CompM Unit := fun s =>
  if nm ∈ inverterMethods then
    if env.invCall s.tick nm then ({ s with tick := s.tick + 1 }, .ok ())
    else ({ s with tick := s.tick + 1 }, .error (.inverterCallError nm))
  else (s, .error (.attributeError nm))

/-- Python truthiness of the `_inverter` attribute. -/
def pyTruthy : Option String → Bool
  | none => false
  | some s => !s.isEmpty

/-- `Compressor._get_inverter_freq` (`__init__.py` lines 1205–1215): in
"internal" mode read and cache the scaled frequency; in "rs485" mode call
the client's `get_frequency` and discard the result — the cache is not
assigned. -/
def get_inverter_freq (env : CompEnv) : CompM Unit := do
  let c ← getCompM
  match c.inverterMode with
  | none => pure ()
  | some "internal" =>
    let v ← read_int16_opt env c.regs.inverter_freq_addr
    modifyCompM (fun c => { c with inverter_freq := (v : ℚ) / 10 })
  | some "rs485" => inverterCall env "get_frequency"
  | some _ => pure ()

/-- `Compressor._get_inverter_curr` (`__init__.py` lines 1222–1232): the
"rs485" branch calls `get_currrent`, a name the `Inverter` class does not
define. -/
def get_inverter_curr (env : CompEnv) : CompM Unit := do
  let c ← getCompM
  match c.inverterMode with
  | none => pure ()
  | some "internal" =>
    let v ← read_int16_opt env c.regs.inverter_curr_addr
    modifyCompM (fun c => { c with inverter_curr := (v : ℚ) / 10 })
  | some "rs485" => inverterCall env "get_currrent"
  | some _ => pure ()

/-- The tail of `Compressor.update`: the inverter reads, performed only
when an inverter is configured. -/
def update_inverter_block (env : CompEnv) : CompM Unit := do
  let c ← getCompM
  if pyTruthy c.inverterMode then
    get_inverter_freq env
    get_inverter_curr env

/-- `Compressor.update` (`__init__.py` lines 863–882): all sensor reads
in the fixed source order, then the inverter reads if configured. -/
def update (env : CompEnv) : CompM Unit := do
  get_state env
  get_enabled env
  get_errors env
  get_warnings env
  get_coolant_in env
  get_coolant_out env
  get_oil_temp env
  get_helium_temp env
  get_low_pressure env
  get_low_pressure_average env
  get_high_pressure env
  get_high_pressure_average env
  get_delta_pressure_average env
  get_motor_current env
  get_hours env
  update_inverter_block env

/-- `Compressor.on` (`__init__.py` lines 1294–1308): write the start
code; on an error reply raise at once; otherwise sleep the settle delay
and read the state; if not starting/running sleep once more — the source
does not read the state again — and if the (unchanged) state is still not
starting/running read the fault code and raise; on success run
`update`. -/
def compressor_on (env : CompEnv) : CompM Unit := do
  let c ← getCompM
  let w ← write_registers env c.regs.enable_addr 1
  if !w then
    throwM .writeOnError
  else
    sleepM
    get_state env
    let c ← getCompM
    if c.state ≠ 2 ∧ c.state ≠ 3 then
      sleepM
    let c ← getCompM
    if c.state ≠ 2 ∧ c.state ≠ 3 then
      get_errors env
      let c ← getCompM
      throwM (.startTimeout c.error_code)
    else
      update env

/-- `Compressor.off` (`__init__.py` lines 1310–1323). -/
def compressor_off (env : CompEnv) : CompM Unit := do
  let c ← getCompM
  let w ← write_registers env c.regs.enable_addr 255
  if !w then
    throwM .writeOffError
  else
    sleepM
    get_state env
    let c ← getCompM
    if c.state ≠ 5 ∧ c.state ≠ 0 then
      sleepM
    let c ← getCompM
    if c.state ≠ 5 ∧ c.state ≠ 0 then
      throwM .stopTimeout
    else
      update env

/-- A hardware run for C1: the enable write succeeds, the operating-state
register reads ready (0) up to time step 2 — which covers the single
state read `on()` performs after the first settle delay — and reads
running (3) from time step 3 on, so a re-read after the second settle
delay (time step 4) would observe running; the fault register reads 0. -/
def envC1 : CompEnv where
  read16 := fun t addr =>
    if addr = 1 then (if t ≤ 2 then some 0 else some 3) else some 0
  read32 := fun _ _ => some 0
  readF32 := fun _ _ => some 0
  writeOk := fun _ _ _ => true
  invCall := fun _ _ => true

/-- A freshly initialized version-3 compressor object with no inverter. -/
def comp0 : Comp where
  isV3 := true
  inverterMode := none
  regs := cp_v3_registers
  state := 0
  enabled := 0
  warning_code := 0
  error_code := 0
  coolant_in := 0
  coolant_out := 0
  oil_temp := 0
  helium_temp := 0
  low_press := 0
  low_press_avg := 0
  high_press := 0
  high_press_avg := 0
  delta_press_avg := 0
  motor_current := 0
  hours := 0
  inverter_freq := 0
  inverter_curr := 0
  coldhead_rpm := 0

/-- C1 (code bug): under `envC1` the hardware is running by the time the
second settle delay ends, yet `on()` raises the confirmation failure with
fault code 0: after the second delay the source re-tests the state
variable cached from the first read instead of re-reading the register.
Two settle delays are consumed, and the would-be second read
(`envC1.read16 4 1`) would have returned running (3). -/
theorem on_second_delay_without_reread :
    (compressor_on envC1 ⟨0, 0, comp0⟩).2 = .error (.startTimeout 0) ∧
    (compressor_on envC1 ⟨0, 0, comp0⟩).1.sleeps = 2 ∧
    envC1.read16 4 1 = some 3 :=
  ⟨rfl, rfl, rfl⟩

/-- C8: when the enable-register write of `on()` or `off()` returns an
error reply, the method raises at once — no settle delay is consumed, no
state re-read happens (the time step advances only by the write itself)
and every cached reading field of the object is left unchanged. -/
theorem write_error_immediate (env : CompEnv) (s : CompSt) :
    (env.writeOk s.tick s.comp.regs.enable_addr 1 = false →
      compressor_on env s =
        ({ s with tick := s.tick + 1 }, .error .writeOnError)) ∧
    (env.writeOk s.tick s.comp.regs.enable_addr 255 = false →
      compressor_off env s =
        ({ s with tick := s.tick + 1 }, .error .writeOffError)) := by
  constructor <;> intro h
  · simp [compressor_on, compM_bind_def, getCompM, write_registers, throwM, h]
  · simp [compressor_off, compM_bind_def, getCompM, write_registers, throwM, h]

/-- An environment whose writes always return error replies. -/
def envW : CompEnv where
  read16 := fun _ _ => some 0
  read32 := fun _ _ => some 0
  readF32 := fun _ _ => some 0
  writeOk := fun _ _ _ => false
  invCall := fun _ _ => true

/-- Witness for C8: a failing write makes `on()` and `off()` raise with
no sleep and the object untouched. -/
theorem write_error_immediate_witness :
    compressor_on envW ⟨0, 0, comp0⟩ = (⟨1, 0, comp0⟩, .error .writeOnError) ∧
    compressor_off envW ⟨0, 0, comp0⟩ = (⟨1, 0, comp0⟩, .error .writeOffError) := by
  have h := write_error_immediate envW ⟨0, 0, comp0⟩
  exact ⟨h.1 rfl, h.2 rfl⟩

/-! ### Analysis of `update` in "rs485" inverter mode (C10) -/

/-- A computation that never changes the inverter mode or the cached
inverter frequency. -/
def StPres {A : Type} (m : CompM A) : Prop :=
  ∀ s : CompSt, (m s).1.comp.inverterMode = s.comp.inverterMode ∧
    (m s).1.comp.inverter_freq = s.comp.inverter_freq

/-- A computation that, from any "rs485" state, keeps the mode and the
cached frequency and always raises. -/
def FailsRS (m : CompM Unit) : Prop :=
  ∀ s : CompSt, s.comp.inverterMode = some "rs485" →
    (m s).1.comp.inverterMode = some "rs485" ∧
    (m s).1.comp.inverter_freq = s.comp.inverter_freq ∧
    ∃ e, (m s).2 = .error e

/-- A computation that keeps mode and frequency on "rs485" states. -/
def PresRS (m : CompM Unit) : Prop :=
  ∀ s : CompSt, s.comp.inverterMode = some "rs485" →
    (m s).1.comp.inverterMode = some "rs485" ∧
    (m s).1.comp.inverter_freq = s.comp.inverter_freq

lemma stPres_presRS {m : CompM Unit} (h : StPres m) : PresRS m := by
  intro s hs
  exact ⟨((h s).1).trans hs, (h s).2⟩

lemma failsRS_seq {m k : CompM Unit} (hm : PresRS m) (hk : FailsRS k) :
    FailsRS (m >>= fun _ => k) := by
  intro s hs
  have hp := hm s hs
  rcases hres : m s with ⟨s', r⟩
  rw [hres] at hp
  cases r with
  | ok a =>
    have hcomp : (m >>= fun _ => k) s = k s' := by rw [compM_bind_def, hres]
    rw [hcomp]
    have hk' := hk s' hp.1
    exact ⟨hk'.1, (hk'.2.1).trans hp.2, hk'.2.2⟩
  | error e =>
    have hcomp : (m >>= fun _ => k) s = (s', .error e) := by
      rw [compM_bind_def, hres]
    rw [hcomp]
    exact ⟨hp.1, hp.2, e, rfl⟩

lemma stPres_bind {A B : Type} {m : CompM A} {f : A → CompM B}
    (hm : StPres m) (hf : ∀ a, StPres (f a)) : StPres (m >>= f) := by
  intro s
  have hm' := hm s
  rcases hres : m s with ⟨s', r⟩
  rw [hres] at hm'
  cases r with
  | ok a =>
    have hcomp : (m >>= f) s = f a s' := by rw [compM_bind_def, hres]
    rw [hcomp]
    have hf' := hf a s'
    exact ⟨hf'.1.trans hm'.1, hf'.2.trans hm'.2⟩
  | error e =>
    have hcomp : (m >>= f) s = (s', .error e) := by rw [compM_bind_def, hres]
    rw [hcomp]
    exact hm'

lemma stPres_ite {A : Type} (c : Prop) [Decidable c] {m k : CompM A}
    (hm : StPres m) (hk : StPres k) : StPres (if c then m else k) := by
  by_cases h : c
  · rw [if_pos h]; exact hm
  · rw [if_neg h]; exact hk

lemma stPres_getComp : StPres getCompM := fun _ => ⟨rfl, rfl⟩

lemma stPres_pure {A : Type} (a : A) : StPres (pure a : CompM A) :=
  fun _ => ⟨rfl, rfl⟩

lemma stPres_throw {A : Type} (e : CompExc) : StPres (throwM e : CompM A) :=
  fun _ => ⟨rfl, rfl⟩

lemma stPres_sleep : StPres sleepM := fun _ => ⟨rfl, rfl⟩

lemma stPres_read_int16 (env : CompEnv) (addr : Nat) :
    StPres (read_int16 env addr) := by
  intro s
  unfold read_int16
  cases env.read16 s.tick addr <;> exact ⟨rfl, rfl⟩

lemma stPres_read_int32 (env : CompEnv) (addr : Nat) :
    StPres (read_int32 env addr) := by
  intro s
  unfold read_int32
  cases env.read32 s.tick addr <;> exact ⟨rfl, rfl⟩

lemma stPres_read_float32 (env : CompEnv) (addr : Nat) :
    StPres (read_float32 env addr) := by
  intro s
  unfold read_float32
  cases env.readF32 s.tick addr <;> exact ⟨rfl, rfl⟩

lemma stPres_read_int16_opt (env : CompEnv) (a : Option Nat) :
    StPres (read_int16_opt env a) := by
  cases a with
  | some addr => exact stPres_read_int16 env addr
  | none => exact stPres_throw _

lemma stPres_write (env : CompEnv) (addr : Nat) (v : Int) :
    StPres (write_registers env addr v) := fun _ => ⟨rfl, rfl⟩

lemma stPres_modify {f : Comp → Comp}
    (hf : ∀ c, (f c).inverterMode = c.inverterMode ∧
      (f c).inverter_freq = c.inverter_freq) : StPres (modifyCompM f) :=
  fun s => hf s.comp

lemma stPres_read_input (env : CompEnv) (addr : Nat) :
    StPres (read_input_register env addr) := by
  unfold read_input_register
  refine stPres_bind stPres_getComp fun c => ?_
  refine stPres_ite _ ?_ (stPres_read_float32 env addr)
  exact stPres_bind (stPres_read_int16 env addr) fun v => stPres_pure _

lemma stPres_get_state (env : CompEnv) : StPres (get_state env) := by
  unfold get_state
  refine stPres_bind stPres_getComp fun c => ?_
  refine stPres_bind (stPres_read_input env _) fun v => ?_
  exact stPres_modify fun c => ⟨rfl, rfl⟩

lemma stPres_get_enabled (env : CompEnv) : StPres (get_enabled env) := by
  unfold get_enabled
  refine stPres_bind stPres_getComp fun c => ?_
  refine stPres_bind (stPres_read_input env _) fun v => ?_
  exact stPres_modify fun c => ⟨rfl, rfl⟩

lemma stPres_get_warnings (env : CompEnv) : StPres (get_warnings env) := by
  unfold get_warnings
  refine stPres_bind stPres_getComp fun c => ?_
  refine stPres_ite _ ?_ ?_
  · exact stPres_bind (stPres_read_int32 env _) fun r =>
      stPres_modify fun c => ⟨rfl, rfl⟩
  · exact stPres_bind (stPres_read_float32 env _) fun r =>
      stPres_modify fun c => ⟨rfl, rfl⟩

lemma stPres_get_errors (env : CompEnv) : StPres (get_errors env) := by
  unfold get_errors
  refine stPres_bind stPres_getComp fun c => ?_
  refine stPres_ite _ ?_ ?_
  · exact stPres_bind (stPres_read_int32 env _) fun r =>
      stPres_modify fun c => ⟨rfl, rfl⟩
  · exact stPres_bind (stPres_read_float32 env _) fun r =>
      stPres_modify fun c => ⟨rfl, rfl⟩

lemma stPres_readScaledSensor (env : CompEnv) (addr : Nat)
    (set : Comp → ℚ → Comp)
    (hset : ∀ c v, (set c v).inverterMode = c.inverterMode ∧
      (set c v).inverter_freq = c.inverter_freq) :
    StPres (readScaledSensor env addr set) := by
  unfold readScaledSensor
  refine stPres_bind stPres_getComp fun c => ?_
  refine stPres_ite _ ?_ ?_
  · exact stPres_bind (stPres_read_int16 env _) fun v =>
      stPres_modify fun c => hset c _
  · exact stPres_bind (stPres_read_float32 env _) fun v =>
      stPres_modify fun c => hset c _

lemma stPres_get_hours (env : CompEnv) : StPres (get_hours env) := by
  unfold get_hours
  refine stPres_bind stPres_getComp fun c => ?_
  refine stPres_ite _ ?_ ?_
  · exact stPres_bind (stPres_read_int32 env _) fun v =>
      stPres_modify fun c => ⟨rfl, rfl⟩
  · exact stPres_bind (stPres_read_float32 env _) fun v =>
      stPres_modify fun c => ⟨rfl, rfl⟩

lemma presRS_get_inverter_freq (env : CompEnv) :
    PresRS (get_inverter_freq env) := by
  intro s hs
  have hstep : get_inverter_freq env s = inverterCall env "get_frequency" s := by
    show (match s.comp.inverterMode with
      | none => pure ()
      | some "internal" => _
      | some "rs485" => inverterCall env "get_frequency"
      | some _ => pure ()) s = _
    rw [hs]
    rfl
  rw [hstep]
  unfold inverterCall
  split_ifs <;> exact ⟨hs, rfl⟩

lemma failsRS_get_inverter_curr (env : CompEnv) :
    FailsRS (get_inverter_curr env) := by
  intro s hs
  have hstep : get_inverter_curr env s = inverterCall env "get_currrent" s := by
    show (match s.comp.inverterMode with
      | none => pure ()
      | some "internal" => _
      | some "rs485" => inverterCall env "get_currrent"
      | some _ => pure ()) s = _
    rw [hs]
    rfl
  rw [hstep]
  unfold inverterCall
  have hnm : "get_currrent" ∉ inverterMethods := by decide
  rw [if_neg hnm]
  exact ⟨hs, rfl, _, rfl⟩

lemma failsRS_update_inverter_block (env : CompEnv) :
    FailsRS (update_inverter_block env) := by
  intro s hs
  have hstep : update_inverter_block env s =
      (get_inverter_freq env >>= fun _ => get_inverter_curr env) s := by
    show (if pyTruthy s.comp.inverterMode = true then
        (get_inverter_freq env >>= fun _ => get_inverter_curr env)
      else pure ()) s = _
    rw [hs]
    rfl
  rw [hstep]
  exact failsRS_seq (presRS_get_inverter_freq env)
    (failsRS_get_inverter_curr env) s hs

lemma failsRS_update (env : CompEnv) : FailsRS (update env) := by
  unfold update
  refine failsRS_seq (stPres_presRS (stPres_get_state env)) ?_
  refine failsRS_seq (stPres_presRS (stPres_get_enabled env)) ?_
  refine failsRS_seq (stPres_presRS (stPres_get_errors env)) ?_
  refine failsRS_seq (stPres_presRS (stPres_get_warnings env)) ?_
  refine failsRS_seq (stPres_presRS ?_) ?_
  · unfold get_coolant_in
    exact stPres_bind stPres_getComp fun c =>
      stPres_readScaledSensor env _ _ fun c v => ⟨rfl, rfl⟩
  refine failsRS_seq (stPres_presRS ?_) ?_
  · unfold get_coolant_out
    exact stPres_bind stPres_getComp fun c =>
      stPres_readScaledSensor env _ _ fun c v => ⟨rfl, rfl⟩
  refine failsRS_seq (stPres_presRS ?_) ?_
  · unfold get_oil_temp
    exact stPres_bind stPres_getComp fun c =>
      stPres_readScaledSensor env _ _ fun c v => ⟨rfl, rfl⟩
  refine failsRS_seq (stPres_presRS ?_) ?_
  · unfold get_helium_temp
    exact stPres_bind stPres_getComp fun c =>
      stPres_readScaledSensor env _ _ fun c v => ⟨rfl, rfl⟩
  refine failsRS_seq (stPres_presRS ?_) ?_
  · unfold get_low_pressure
    exact stPres_bind stPres_getComp fun c =>
      stPres_readScaledSensor env _ _ fun c v => ⟨rfl, rfl⟩
  refine failsRS_seq (stPres_presRS ?_) ?_
  · unfold get_low_pressure_average
    exact stPres_bind stPres_getComp fun c =>
      stPres_readScaledSensor env _ _ fun c v => ⟨rfl, rfl⟩
  refine failsRS_seq (stPres_presRS ?_) ?_
  · unfold get_high_pressure
    exact stPres_bind stPres_getComp fun c =>
      stPres_readScaledSensor env _ _ fun c v => ⟨rfl, rfl⟩
  refine failsRS_seq (stPres_presRS ?_) ?_
  · unfold get_high_pressure_average
    exact stPres_bind stPres_getComp fun c =>
      stPres_readScaledSensor env _ _ fun c v => ⟨rfl, rfl⟩
  refine failsRS_seq (stPres_presRS ?_) ?_
  · unfold get_delta_pressure_average
    exact stPres_bind stPres_getComp fun c =>
      stPres_readScaledSensor env _ _ fun c v => ⟨rfl, rfl⟩
  refine failsRS_seq (stPres_presRS ?_) ?_
  · unfold get_motor_current
    exact stPres_bind stPres_getComp fun c =>
      stPres_readScaledSensor env _ _ fun c v => ⟨rfl, rfl⟩
  refine failsRS_seq (stPres_presRS (stPres_get_hours env)) ?_
  exact failsRS_update_inverter_block env

/-- C10: with inverter mode "rs485", `update()` always raises — when all
sensor reads succeed, the inverter-current branch looks up `get_currrent`,
which the `Inverter` class does not define — and the cached
`_inverter_freq` is never changed by `update()`, since the rs485
frequency branch discards the client's result. -/
theorem rs485_update_always_raises (env : CompEnv) (s : CompSt)
    (hs : s.comp.inverterMode = some "rs485") :
    (∃ e, (update env s).2 = .error e) ∧
    (update env s).1.comp.inverter_freq = s.comp.inverter_freq := by
  have h := failsRS_update env s hs
  exact ⟨h.2.2, h.2.1⟩

/-- A version-2 compressor configured for an rs485 inverter, and an
environment whose reads all succeed. -/
def compRS : Comp :=
  { comp0 with
    isV3 := false
    inverterMode := some "rs485"
    regs := cp_v2_registers }

/-- An environment whose operations all succeed. -/
def envOk : CompEnv where
  read16 := fun _ _ => some 0
  read32 := fun _ _ => some 0
  readF32 := fun _ _ => some 0
  writeOk := fun _ _ _ => true
  invCall := fun _ _ => true

/-- Witness for C10: on a concrete rs485 compressor with an all-good
transport, `update` raises and the cached frequency is untouched. -/
theorem rs485_update_always_raises_witness :
    (∃ e, (update envOk ⟨0, 0, compRS⟩).2 = .error e) ∧
    (update envOk ⟨0, 0, compRS⟩).1.comp.inverter_freq = 0 := by
  have h := rs485_update_always_raises envOk ⟨0, 0, compRS⟩ rfl
  exact ⟨h.1, h.2.trans rfl⟩

/-! ## Polling daemon cycle (`compressor-smax-daemon.py` lines 202–255) -/

/-- A value published to SMA-X. -/
inductive DVal where
  | num (v : Int)
  | str (s : String)
deriving DecidableEq

/-- Python dict assignment `d[k] = v` on a duplicate-free association
list: replace in place if the key exists, else append. -/
def dictSet : List (String × DVal) → String → DVal → List (String × DVal)
  | [], k, v => [(k, v)]
  | p :: rest, k, v =>
    if p.1 = k then (k, v) :: rest else p :: dictSet rest k v

/-- Python dict lookup. -/
def dictGet (d : List (String × DVal)) (k : String) : Option DVal :=
  (d.find? (fun p => p.1 = k)).map Prod.snd

/-- The per-key body of the publication loops (lines 234–238 and
244–248): store the reading, then store the comm status "good" — note
the status is written inside the loop, once per configured key. -/
def logFold (statusKey : String) (pairs : List (String × Int))
    (d : List (String × DVal)) : List (String × DVal) :=
  pairs.foldl (fun d kv =>
    dictSet (dictSet d kv.1 (.num kv.2)) statusKey (.str "good")) d

/-- The environment of one `smax_logging_action` cycle: whether each
`update()` attempt succeeds (indexed by attempt number), whether an
inverter is configured, and the configured logged-data keys with the
readings they produce. -/
structure DaemonEnv where
  compUpdateOk : Nat → Bool
  invPresent : Bool
  invUpdateOk : Nat → Bool
  compData : List (String × Int)
  invData : List (String × Int)

/-- `CompressorSmaxService.smax_logging_action` (lines 202–255): try
`compressor.update()` and retry exactly once on failure; same for the
inverter when configured; build `logged_data` — per configured key the
reading plus comm status "good", or the single status "stale" on
failure — and share every entry.  Returns the published dict and the
numbers of compressor and inverter update attempts. -/
def smax_logging_action (env : DaemonEnv) :
    List (String × DVal) × Nat × Nat :=
  let compError := !env.compUpdateOk 0 && !env.compUpdateOk 1
  let invError := !env.invUpdateOk 0 && !env.invUpdateOk 1
  let d1 :=
    if !compError then logFold "compressor_comms_status" env.compData []
    else dictSet [] "compressor_comms_status" (.str "stale")
  let d2 :=
    if env.invPresent then
      if !invError then logFold "inverter_comms_status" env.invData d1
      else dictSet d1 "inverter_comms_status" (.str "stale")
    else d1
  (d2, (if env.compUpdateOk 0 then 1 else 2),
    (if env.invPresent then (if env.invUpdateOk 0 then 1 else 2) else 0))

lemma dictGet_dictSet_self : ∀ (d : List (String × DVal)) (k : String) (v : DVal),
    dictGet (dictSet d k v) k = some v := by
  intro d k v
  induction d with
  | nil => simp [dictSet, dictGet]
  | cons p rest ih =>
    by_cases hp : p.1 = k
    · simp [dictSet, dictGet, hp]
    · simp only [dictSet, if_neg hp]
      rw [dictGet, List.find?_cons_of_neg _ (by simpa using hp)]
      exact ih

lemma dictGet_dictSet_ne : ∀ (d : List (String × DVal)) (k k' : String) (v : DVal),
    k ≠ k' → dictGet (dictSet d k v) k' = dictGet d k' := by
  intro d k k' v hne
  induction d with
  | nil => simp [dictSet, dictGet, hne]
  | cons p rest ih =>
    by_cases hp : p.1 = k
    · simp only [dictSet, if_pos hp]
      rw [dictGet, List.find?_cons_of_neg _ (by simpa using hne),
        dictGet, List.find?_cons_of_neg _ (by simp [hp, hne])]
    · simp only [dictSet, if_neg hp]
      by_cases hp' : p.1 = k'
      · rw [dictGet, List.find?_cons_of_pos _ (by simpa using hp'),
          dictGet, List.find?_cons_of_pos _ (by simpa using hp')]
      · rw [dictGet, List.find?_cons_of_neg _ (by simpa using hp'),
          dictGet, List.find?_cons_of_neg _ (by simpa using hp')]
        exact ih

lemma logFold_get_other (statusKey : String) (pairs : List (String × Int))
    (d : List (String × DVal)) (k' : String)
    (hk : ∀ p ∈ pairs, p.1 ≠ k') (hs : statusKey ≠ k') :
    dictGet (logFold statusKey pairs d) k' = dictGet d k' := by
  induction pairs generalizing d with
  | nil => rfl
  | cons kv rest ih =>
    rw [logFold, List.foldl_cons]
    rw [show (rest.foldl _ _ : List (String × DVal)) =
      logFold statusKey rest (dictSet (dictSet d kv.1 (.num kv.2))
        statusKey (.str "good")) from rfl]
    rw [ih _ (fun p hp => hk p (List.mem_cons_of_mem kv hp)),
      dictGet_dictSet_ne _ _ _ _ hs,
      dictGet_dictSet_ne _ _ _ _ (hk kv (List.mem_cons_self kv rest))]

lemma logFold_get_status (statusKey : String) (pairs : List (String × Int))
    (d : List (String × DVal)) (hne : pairs ≠ []) :
    dictGet (logFold statusKey pairs d) statusKey = some (.str "good") := by
  induction pairs generalizing d with
  | nil => cases hne rfl
  | cons kv rest ih =>
    rw [logFold, List.foldl_cons]
    rw [show (rest.foldl _ _ : List (String × DVal)) =
      logFold statusKey rest (dictSet (dictSet d kv.1 (.num kv.2))
        statusKey (.str "good")) from rfl]
    cases rest with
    | nil => exact dictGet_dictSet_self _ _ _
    | cons kv₂ r => exact ih _ (List.cons_ne_nil _ _)

lemma logFold_get_pair (statusKey : String) (pairs : List (String × Int))
    (d : List (String × DVal)) (hnd : (pairs.map Prod.fst).Nodup)
    (hs : ∀ p ∈ pairs, p.1 ≠ statusKey) (kv : String × Int)
    (hmem : kv ∈ pairs) :
    dictGet (logFold statusKey pairs d) kv.1 = some (.num kv.2) := by
  induction pairs generalizing d with
  | nil => cases hmem
  | cons p rest ih =>
    rw [logFold, List.foldl_cons]
    rw [show (rest.foldl _ _ : List (String × DVal)) =
      logFold statusKey rest (dictSet (dictSet d p.1 (.num p.2))
        statusKey (.str "good")) from rfl]
    have hnd' : p.1 ∉ rest.map Prod.fst ∧ (rest.map Prod.fst).Nodup := by
      rw [List.map_cons, List.nodup_cons] at hnd
      exact hnd
    rcases List.mem_cons.mp hmem with rfl | hmem'
    · rw [logFold_get_other _ _ _ _ ?keys (hs kv (List.mem_cons_self kv rest)).symm]
      case keys =>
        intro q hq hqe
        exact hnd'.1 (hqe ▸ List.mem_map_of_mem Prod.fst hq)
      rw [dictGet_dictSet_ne _ _ _ _ (hs kv (List.mem_cons_self kv rest)).symm,
        dictGet_dictSet_self]
    · exact ih _ hnd'.2 (fun q hq => hs q (List.mem_cons_of_mem p hq)) hmem'

/-- C5 counterexample: with update succeeding on the first attempt but no
logged keys configured, the cycle publishes nothing — in particular no
"good" comm status — because the status is only written per configured
key. -/
theorem logging_good_status_missing :
    smax_logging_action ⟨fun _ => true, false, fun _ => true, [], []⟩ =
      ([], 1, 0) ∧
    dictGet (smax_logging_action
      ⟨fun _ => true, false, fun _ => true, [], []⟩).1
      "compressor_comms_status" = none := ⟨rfl, rfl⟩

/-- Well-formed logged-data configuration: keys are duplicate-free and
distinct from the two status keys. -/
def WellKeyed (env : DaemonEnv) : Prop :=
  (∀ p ∈ env.compData, p.1 ≠ "compressor_comms_status" ∧
    p.1 ≠ "inverter_comms_status") ∧
  (∀ p ∈ env.invData, p.1 ≠ "compressor_comms_status" ∧
    p.1 ≠ "inverter_comms_status") ∧
  (env.compData.map Prod.fst).Nodup ∧ (env.invData.map Prod.fst).Nodup

/-- C5 (amended): per cycle each device's `update()` gets exactly one
additional retry; if both compressor attempts fail, the cycle still
completes, publishes "stale" as the compressor comm status and publishes
all available inverter readings; if the update succeeds (first try or
retry) the comm status "good" is published provided at least one logged
key is configured for the device (with none configured, nothing is
published for it — the counterexample); symmetrically for the inverter. -/
theorem logging_action_retry_and_status (env : DaemonEnv)
    (hw : WellKeyed env) :
    ((smax_logging_action env).2.1 = if env.compUpdateOk 0 then 1 else 2) ∧
    ((smax_logging_action env).2.2 =
      if env.invPresent then (if env.invUpdateOk 0 then 1 else 2) else 0) ∧
    (env.compUpdateOk 0 = false → env.compUpdateOk 1 = false →
      dictGet (smax_logging_action env).1 "compressor_comms_status" =
        some (.str "stale") ∧
      (env.invPresent = true →
        (env.invUpdateOk 0 = true ∨ env.invUpdateOk 1 = true) →
        ∀ kv ∈ env.invData,
          dictGet (smax_logging_action env).1 kv.1 = some (.num kv.2))) ∧
    ((env.compUpdateOk 0 = true ∨ env.compUpdateOk 1 = true) →
      env.compData ≠ [] →
      dictGet (smax_logging_action env).1 "compressor_comms_status" =
        some (.str "good")) ∧
    (env.invPresent = true → env.invUpdateOk 0 = false →
      env.invUpdateOk 1 = false →
      dictGet (smax_logging_action env).1 "inverter_comms_status" =
        some (.str "stale")) := by
  obtain ⟨hcomp, hinv, hcnd, hind⟩ := hw
  refine ⟨rfl, rfl, ?_, ?_, ?_⟩
  · intro h0 h1
    have hce : (!env.compUpdateOk 0 && !env.compUpdateOk 1) = true := by
      rw [h0, h1]; rfl
    constructor
    · simp only [smax_logging_action, hce, Bool.not_true]
      rw [if_neg Bool.false_ne_true]
      by_cases hp : env.invPresent = true
      · rw [if_pos hp]
        by_cases hie : (!env.invUpdateOk 0 && !env.invUpdateOk 1) = true
        · rw [hie]
          show dictGet (dictSet _ _ _) _ = _
          rw [dictGet_dictSet_ne _ _ _ _ (by decide)]
          exact dictGet_dictSet_self _ _ _
        · rw [Bool.not_eq_true] at hie
          rw [hie]
          show dictGet (logFold _ env.invData _) _ = _
          rw [logFold_get_other _ _ _ _ (fun p hp => (hinv p hp).1) (by decide)]
          exact dictGet_dictSet_self _ _ _
      · rw [if_neg hp]
        exact dictGet_dictSet_self _ _ _
    · intro hp hok kv hkv
      have hie : (!env.invUpdateOk 0 && !env.invUpdateOk 1) = false := by
        rcases hok with h | h <;> rw [h] <;> simp
      simp only [smax_logging_action, hce, hie, Bool.not_true, Bool.not_false]
      rw [if_neg Bool.false_ne_true, if_pos hp, if_pos trivial]
      exact logFold_get_pair _ _ _ hind (fun q hq => (hinv q hq).2) kv hkv
  · intro hok hne
    have hce : (!env.compUpdateOk 0 && !env.compUpdateOk 1) = false := by
      rcases hok with h | h <;> rw [h] <;> simp
    simp only [smax_logging_action, hce, Bool.not_false]
    rw [if_pos trivial]
    by_cases hp : env.invPresent = true
    · rw [if_pos hp]
      by_cases hie : (!env.invUpdateOk 0 && !env.invUpdateOk 1) = true
      · rw [hie]
        show dictGet (dictSet _ _ _) _ = _
        rw [dictGet_dictSet_ne _ _ _ _ (by decide)]
        exact logFold_get_status _ _ _ hne
      · rw [Bool.not_eq_true] at hie
        rw [hie]
        show dictGet (logFold _ env.invData _) _ = _
        rw [logFold_get_other _ _ _ _ (fun p hp => (hinv p hp).1) (by decide)]
        exact logFold_get_status _ _ _ hne
    · rw [if_neg hp]
      exact logFold_get_status _ _ _ hne
  · intro hp h0 h1
    have hie : (!env.invUpdateOk 0 && !env.invUpdateOk 1) = true := by
      rw [h0, h1]; rfl
    simp only [smax_logging_action, hie, Bool.not_true]
    rw [if_pos hp, if_neg Bool.false_ne_true]
    exact dictGet_dictSet_self _ _ _

/-- A cycle where the compressor update needs its retry and both inverter
attempts fail. -/
def envD : DaemonEnv where
  compUpdateOk := fun n => n == 1
  invPresent := true
  invUpdateOk := fun _ => false
  compData := [("coolant_in", 43)]
  invData := [("frequency", 60)]

/-- Witness for C5: the retried compressor update publishes "good", the
doubly-failed inverter update publishes "stale", and two attempts were
made for each device. -/
theorem logging_action_retry_and_status_witness :
    dictGet (smax_logging_action envD).1 "compressor_comms_status" =
      some (.str "good") ∧
    dictGet (smax_logging_action envD).1 "inverter_comms_status" =
      some (.str "stale") ∧
    (smax_logging_action envD).2.1 = 2 ∧
    (smax_logging_action envD).2.2 = 2 := by
  have h := logging_action_retry_and_status envD
    (by refine ⟨?_, ?_, ?_, ?_⟩ <;> simp [envD])
  refine ⟨h.2.2.2.1 (Or.inr rfl) (by simp [envD]), h.2.2.2.2 rfl rfl rfl, ?_, ?_⟩
  · rw [h.1]; rfl
  · rw [h.2.1]; rfl

/-! ## Hardware-lock discipline of the daemon interface
(`compressor_interface.py` lines 159–277) -/

/-- An event in the execution of a daemon-interface method: acquiring or
releasing the single shared `_hardware_lock`, or touching the hardware
(a register read or write, named for the operation performed). -/
inductive LockEv where
  | acq
  | rel
  | hw (nm : String)
deriving DecidableEq

/-- `CompressorInterface.logging_action` (lines 159–212): when no
hardware object exists, `connect_hardware` constructs the `Compressor`
(which reads registers) inside a `with self._hardware_lock` block that
releases on success and failure alike; then, when hardware is present,
the update and every per-key read happen inside one `with` block, with
the status fields set after release without touching hardware.
`connectOk` tells whether the construction succeeded, `updateOk` whether
`update()` succeeded (on failure the `with` block is exited by the
exception), and `gets` names the per-key hardware accesses. -/
def logging_action_trace (wasNone connectOk updateOk : Bool)
    (gets : List String) : List LockEv :=
  (if wasNone then [.acq, .hw "Compressor"] ++ [.rel] else []) ++
  (if (!wasNone || connectOk) then
    [.acq, .hw "update"] ++ (if updateOk then gets.map .hw else []) ++ [.rel]
  else [])

/-- `CompressorInterface.compressor_control_callback` (lines 215–241):
with hardware present, `on()` or `off()` runs inside the `with
self._hardware_lock` block; without hardware only logging happens. -/
def compressor_control_trace (present dataOn : Bool) : List LockEv :=
  if present then
    [.acq, .hw (if dataOn then "Compressor.on" else "Compressor.off"), .rel]
  else []

/-- `CompressorInterface.frequency_control_callback` (lines 243–277):
the range check happens before the lock — a malformed or out-of-range
request returns with no hardware access — and the accepted command's
`set_inverter_freq` runs inside the `with self._hardware_lock` block. -/
def frequency_control_trace (present parseOk : Bool) (freq : ℚ) :
    List LockEv :=
  if !parseOk then []
  else if freq < 40 then []
  else if freq > 70 then []
  else if present then [.acq, .hw "Compressor.set_inverter_freq", .rel]
  else []

/-- Walk a trace tracking the depth of the single shared lock: every
hardware event must happen at positive depth, and releases must match
acquisitions. -/
def lockDepthOk : Nat → List LockEv → Bool
  | _, [] => true
  | d, .acq :: r => lockDepthOk (d + 1) r
  | d, .rel :: r => decide (0 < d) && lockDepthOk (d - 1) r
  | d, .hw _ :: r => decide (0 < d) && lockDepthOk d r

/-- Every hardware operation in the trace is performed while holding the
lock (and the trace is lock-balanced). -/
def allOpsLocked (tr : List LockEv) : Bool := lockDepthOk 0 tr

lemma lockDepthOk_hw_append (l : List String) (d : Nat) (hd : 0 < d)
    (rest : List LockEv) :
    lockDepthOk d (l.map .hw ++ rest) = lockDepthOk d rest := by
  induction l with
  | nil => rfl
  | cons nm r ih => simp [lockDepthOk, hd, ih]

/-- C6: in every branch of the daemon interface — the polling action
(including its reconnect path) and both command callbacks — every
hardware register access happens while the single shared hardware lock is
held. -/
theorem daemon_ops_locked (wasNone connectOk updateOk present dataOn
    parseOk : Bool) (gets : List String) (freq : ℚ) :
    allOpsLocked (logging_action_trace wasNone connectOk updateOk gets) = true ∧
    allOpsLocked (compressor_control_trace present dataOn) = true ∧
    allOpsLocked (frequency_control_trace present parseOk freq) = true := by
  refine ⟨?_, ?_, ?_⟩
  · unfold allOpsLocked logging_action_trace
    cases wasNone <;> cases connectOk <;> cases updateOk <;>
      simp [lockDepthOk, lockDepthOk_hw_append]
  · unfold allOpsLocked compressor_control_trace
    cases present <;> simp [lockDepthOk]
  · unfold allOpsLocked frequency_control_trace
    cases parseOk
    · rfl
    · by_cases h40 : freq < 40
      · simp [h40, lockDepthOk]
      · by_cases h70 : freq > 70
        · simp [h40, h70, lockDepthOk]
        · cases present <;> simp [h40, h70, lockDepthOk]

/-- Witness for C7 at 60 Hz: the encoded write is 6000. -/
theorem set_frequency_encoding_and_confirm_witness :
    set_frequency 60 =
      .ok ([.writeReg frequency_control_addr 6000, .sleepOp,
            .retriedRead frequency_control_addr 2], 6000) := by
  have h := (set_frequency_encoding_and_confirm 60 (by norm_num) (by norm_num)).1
  have e : pyInt ((60:ℚ) * 100) = 6000 := by
    rw [pyInt_nonneg _ (by norm_num)]; norm_num
  rw [e] at h
  exact h

end Wsma
